import Mathlib

set_option maxHeartbeats 2000000
set_option maxRecDepth 16000

namespace Grace

/-! String toolkit: executable character-list primitives mirroring the Python
string operations used by `grace_master/main.py`, together with the lemmas
the development needs. -/

/-- Does the list `l` start with the pattern `p`? (Python `str.startswith`.) -/
def startsWithL : List Char → List Char → Bool
  | _, [] => true
  | [], _ :: _ => false
  | a :: as, b :: bs => a == b && startsWithL as bs

/-- Does the pattern `p` occur as a contiguous segment of `l`? (Python `in`.) -/
def hasSubL : List Char → List Char → Bool
  | [], p => startsWithL [] p
  | a :: as, p => startsWithL (a :: as) p || hasSubL as p

/-- Number of positions of `l` at which the pattern `p` starts. -/
def countSubL : List Char → List Char → Nat
  | [], p => if startsWithL [] p then 1 else 0
  | a :: as, p => (if startsWithL (a :: as) p then 1 else 0) + countSubL as p

/-- String-level substring test. -/
def subStr (s p : String) : Bool := hasSubL s.data p.data

/-- String-level substring-occurrence count. -/
def countSub (s p : String) : Nat := countSubL s.data p.data

theorem strData_append (a b : String) : (a ++ b).data = a.data ++ b.data := by
  cases a; cases b; rfl

theorem strAppend_assoc (a b c : String) : a ++ b ++ c = a ++ (b ++ c) := by
  cases a; cases b; cases c
  show String.mk _ = String.mk _
  simp [String.append]

theorem startsWithL_nil (l : List Char) : startsWithL l [] = true := by
  cases l <;> rfl

theorem startsWithL_self_append (p r : List Char) : startsWithL (p ++ r) p = true := by
  induction p with
  | nil => exact startsWithL_nil r
  | cons b bs ih => simp [startsWithL, ih]

theorem startsWithL_extend (l p r : List Char) (h : startsWithL l p = true) :
    startsWithL (l ++ r) p = true := by
  induction p generalizing l with
  | nil => exact startsWithL_nil _
  | cons b bs ih =>
    cases l with
    | nil => simp [startsWithL] at h
    | cons a as =>
      simp [startsWithL] at h ⊢
      exact ⟨h.1, ih as h.2⟩

theorem hasSubL_of_startsWith (l p : List Char) (h : startsWithL l p = true) :
    hasSubL l p = true := by
  cases l with
  | nil => simpa [hasSubL] using h
  | cons a as => simp [hasSubL, h]

theorem hasSubL_cons (a : Char) (as p : List Char) (h : hasSubL as p = true) :
    hasSubL (a :: as) p = true := by
  simp [hasSubL, h]

theorem hasSubL_append_right (a b p : List Char) (h : hasSubL b p = true) :
    hasSubL (a ++ b) p = true := by
  induction a with
  | nil => simpa using h
  | cons x xs ih => exact hasSubL_cons x (xs ++ b) p ih

theorem hasSubL_append_left (a b p : List Char) (h : hasSubL a p = true) :
    hasSubL (a ++ b) p = true := by
  induction a with
  | nil =>
    cases p with
    | nil => cases b with
      | nil => exact h
      | cons y ys => simp [hasSubL, startsWithL]
    | cons q qs => simp [hasSubL, startsWithL] at h
  | cons x xs ih =>
    simp only [hasSubL, Bool.or_eq_true] at h
    rcases h with h | h
    · exact hasSubL_of_startsWith _ _ (startsWithL_extend _ _ _ h)
    · exact hasSubL_cons _ _ _ (ih h)

theorem hasSubL_decomp (x p y : List Char) : hasSubL (x ++ (p ++ y)) p = true :=
  hasSubL_append_right x (p ++ y) p
    (hasSubL_of_startsWith _ _ (startsWithL_self_append p y))

theorem subStr_decomp (x p y : String) : subStr (x ++ (p ++ y)) p = true := by
  show hasSubL (x ++ (p ++ y)).data p.data = true
  rw [strData_append, strData_append]
  exact hasSubL_decomp x.data p.data y.data

theorem subStr_append_right (a b p : String) (h : subStr b p = true) :
    subStr (a ++ b) p = true := by
  show hasSubL (a ++ b).data p.data = true
  rw [strData_append]
  exact hasSubL_append_right _ _ _ h

theorem subStr_append_left (a b p : String) (h : subStr a p = true) :
    subStr (a ++ b) p = true := by
  show hasSubL (a ++ b).data p.data = true
  rw [strData_append]
  exact hasSubL_append_left _ _ _ h

/-- Python `str.lower` (ASCII, as used on file names in the source). -/
def pyLower (s : String) : String := String.mk (s.data.map Char.toLower)

/-- String-level `startswith`. -/
def strStartsWith (s p : String) : Bool := startsWithL s.data p.data

/-- String-level `endswith`. -/
def strEndsWith (s p : String) : Bool := startsWithL s.data.reverse p.data.reverse

/-- Python whitespace characters recognised by `str.strip()`. -/
def isPySpace (c : Char) : Bool :=
  c == ' ' || c == '\t' || c == '\n' || c == '\x0d' ||
  c == Char.ofNat 11 || c == Char.ofNat 12

/-- Python `str.strip()` on a character list. -/
def pyStripL (l : List Char) : List Char :=
  ((l.dropWhile isPySpace).reverse.dropWhile isPySpace).reverse

/-- Python `str.replace(pat, rep)`: replace every non-overlapping occurrence,
left to right.  (For the empty pattern the source only ever uses an empty
replacement, where Python's behaviour is the identity, as here.) -/
def pyReplaceAux (pat rep : List Char) : Nat → List Char → List Char
  | _, [] => []
  | 0, l => l
  | fuel + 1, c :: rest =>
    if pat ≠ [] ∧ startsWithL (c :: rest) pat = true then
      rep ++ pyReplaceAux pat rep fuel (rest.drop (pat.length - 1))
    else
      c :: pyReplaceAux pat rep fuel rest

/-- Python behaviour realised with a fuel argument bounded by the list length,
so that the definition stays structurally recursive and executable. -/
def pyReplaceL (pat rep l : List Char) : List Char :=
  pyReplaceAux pat rep l.length l

/-- String-level Python `replace`. -/
def pyReplace (s pat rep : String) : String :=
  String.mk (pyReplaceL pat.data rep.data s.data)

/-- Python `content.split(chr(10))`. -/
def pySplitNL : List Char → List (List Char)
  | [] => [[]]
  | c :: r =>
    if c = '\n' then [] :: pySplitNL r
    else
      match pySplitNL r with
      | [] => [[c]]
      | h :: t => (c :: h) :: t

/-- Python `(chr(10)).join(lines)`. -/
def joinNL : List (List Char) → List Char
  | [] => []
  | [x] => x
  | x :: xs => x ++ '\n' :: joinNL xs

/-- Iterating over an open Python text file yields its lines, each keeping its
trailing newline; a final segment without a newline is yielded as-is, and an
empty file yields nothing. -/
def pyFileLines : List Char → List (List Char)
  | [] => []
  | c :: r =>
    if c = '\n' then ['\n'] :: pyFileLines r
    else
      match pyFileLines r with
      | [] => [[c]]
      | h :: t => (c :: h) :: t

/-- Number of occurrences of a character (Python `str.count` on `os.sep`). -/
def countCharL (l : List Char) (c : Char) : Nat := l.count c

/-- `os.path.join` on POSIX, for the relative/simple shapes the tool builds. -/
def pyJoin (a b : String) : String :=
  if strStartsWith b "/" then b
  else if a = "" ∨ strEndsWith a "/" then a ++ b
  else a ++ "/" ++ b

/-- `os.path.basename` on POSIX: everything after the last separator. -/
def pyBasename (s : String) : String :=
  String.mk (((s.data.reverse.takeWhile (fun c => c ≠ '/'))).reverse)

/-- Python `'    ' * n`-style repetition. -/
def strRepeat (s : String) : Nat → String
  | 0 => ""
  | n + 1 => s ++ strRepeat s n

/-- Sequential concatenation of written chunks (a run of `f.write` calls or
`+=` accumulations). -/
def strConcat : List String → String
  | [] => ""
  | s :: rest => s ++ strConcat rest

/-! Embedding of `src/grace_master/main.py`. -/

/-- `GRACE_DIR` from the configuration section. -/
def GRACE_DIR : String := ".grace"

/-- `AAG_DEFINITION`, the common concept block injected into the prompts. -/
def AAG_DEFINITION : String := "\n      <concept name=\"AAG_PATTERN\">\n        Definition: Actor -> Action -> Goal.\n        Usage: A compressed pseudo-code format to describe business logic.\n        Example: `User -> Click(Login) -> AuthSystem.Validate(Creds) ? Token : Error`\n        Why: This is the \"Source Language\" you will translate into Code.\n      </concept>\n"

/-- `BASE_PROMPTS["RESEARCH"]` with the f-string interpolation carried out. -/
def RESEARCH_PROMPT : String := "\n    <meta_instructions role=\"SCIENTIFIC_RESEARCHER\">\n      <goal>Distill information into a strict scientific specification (PRD/SRS style).</goal>\n      <output_format>Markdown file named '.grace/KNOWLEDGE.md'</output_format>\n      <formatting_rules>\n        1. OUTPUT ONLY MARKDOWN. Do not wrap response in XML tags.\n        2. Use LaTeX for math.\n      </formatting_rules>\n      <rules>\n        1. PRIORITIZE <user_logic> (Manual Rules) over external sources.\n        2. STRUCTURE: Use O-M-I pattern (Observation, Model, Implementation).\n        3. IGNORE marketing fluff. Focus on algorithms and constraints.\n      </rules>\n    </meta_instructions>\n    "

/-- `BASE_PROMPTS["ARCHITECT"]`, assembled the way the f-string interpolates
`AAG_DEFINITION`. -/
def ARCHITECT_PROMPT : String := "\n    <meta_instructions role=\"CHIEF_ARCHITECT\">\n      <goal>Create a GRACE-compliant Architecture: Graph -> Module Contracts.</goal>\n      <output_format>Markdown file named '.grace/ARCHITECTURE.md'</output_format>\n      " ++ AAG_DEFINITION ++ "\n      <formatting_rules>\n        1. OUTPUT ONLY MARKDOWN. No XML tags.\n        2. Use MermaidJS for the Dependency Graph.\n      </formatting_rules>\n      <methodology>\n        STEP 1: MODELING. Create a 'Dependency Graph' of the system. Map business entities to Modules.\n        STEP 2: MODULE CONTRACTS. For every node in the graph, write a High-Level Contract using AAG.\n        STEP 3: INTERFACES. Define the public API signatures (Skeleton) but NO implementation.\n      </methodology>\n      <rules>\n        1. The 'Module Contract' is the Single Source of Truth for the Developer.\n        2. Use AAG pseudo-code to describe complex logic flows concisely.\n        3. If <current_codebase_structure> exists, preserve it unless the Mission explicitly demands refactoring.\n      </rules>\n    </meta_instructions>\n    "

/-- `BASE_PROMPTS["REFACTOR"]`. -/
def REFACTOR_PROMPT : String := "\n    <meta_instructions role=\"SYSTEM_ARCHITECT\">\n      <goal>Reverse-Engineer existing code into a GRACE Graph and Design the TO-BE state.</goal>\n      <output_format>Markdown file named '.grace/ARCHITECTURE.md'</output_format>\n      " ++ AAG_DEFINITION ++ "\n      <formatting_rules>\n        1. OUTPUT ONLY MARKDOWN. No XML tags.\n      </formatting_rules>\n      <methodology>\n        1. ANALYZE <source_code_raw> to extract the implicit business logic.\n        2. CONVERT that logic into AAG Contracts (Actor -> Action -> Goal).\n        3. DESIGN the new Dependency Graph based on the <mission>.\n        4. DEFINE the Migration Path: Old Contract -> New Contract.\n      </methodology>\n    </meta_instructions>\n    "

/-- Opening section of `BASE_PROMPTS["DEVELOPER"]`, up to the interpolated
`AAG_DEFINITION`. -/
def DEV_P1 : String := "\n    <meta_instructions role=\"SENIOR_DEVELOPER\">\n      <goal>Translate AAG Contracts into Executable Code.</goal>\n      <methodology>Contract-Driven Development (CDD)</methodology>\n      "

/-- Middle section of `BASE_PROMPTS["DEVELOPER"]` (formatting rules and
mental model). -/
def DEV_P2 : String := "\n      <formatting_rules>\n        1. STRICTLY PLAIN MARKDOWN OUTPUT. No XML wrappers.\n        2. WRAP CODE in triple-backticks (```python).\n      </formatting_rules>\n      <mental_model>\n        You are a TRANSLATOR. \n        Source Language: AAG Contracts (in ARCHITECTURE.md).\n        Target Language: Python/JS/Go (Code).\n        \n        Your SFT training treats this as \"Translation\". \n        Do not \"invent\" logic. \"Compile\" the contract into code.\n      </mental_model>\n"

/-- Final section of `BASE_PROMPTS["DEVELOPER"]` (the rules block and the
closing tag). -/
def DEV_P3 : String := "      <rules>\n        1. OLD CODE IS SACRED. If it works, do not touch it.\n        2. NEW CODE MUST HAVE CONTRACTS.\n           - BEFORE every function, write a Docstring containing the AAG logic.\n           - Example:\n             def calculate_tax(amount):\n                 ''' \n                 Contract: Input(Amount) -> Rule(Region=EU?) -> Apply(VAT) : Apply(SalesTax) \n                 '''\n                 # ... implementation ...\n        3. STRICTLY follow the Dependency Graph from <architecture_context>.\n      </rules>\n    </meta_instructions>\n    "

/-- `BASE_PROMPTS["DEVELOPER"]`, assembled the way the f-string interpolates
`AAG_DEFINITION`. -/
def DEVELOPER_PROMPT : String := DEV_P1 ++ AAG_DEFINITION ++ DEV_P2 ++ DEV_P3

/-- `BASE_PROMPTS.get(mode, "")`. -/
def promptFor (mode : String) : String :=
  if mode = "RESEARCH" then RESEARCH_PROMPT
  else if mode = "ARCHITECT" then ARCHITECT_PROMPT
  else if mode = "REFACTOR" then REFACTOR_PROMPT
  else if mode = "DEVELOPER" then DEVELOPER_PROMPT
  else ""

/-! The filesystem and environment model. -/

mutual
/-- A directory: named subdirectories (in `os.scandir` order) and file names. -/
inductive Dir : Type where
  | node : DirList → List String → Dir
/-- The subdirectory list of a directory. -/
inductive DirList : Type where
  | dnil : DirList
  | dcons : String → Dir → DirList → DirList
end

/-- What the filesystem holds at a given path. -/
inductive FsEntry : Type where
  | absent : FsEntry
  | file : Except String String → FsEntry
  | dir : Dir → FsEntry

/-- The ambient environment of one run: filesystem contents (reading a file
either yields its UTF-8 text or raises, recorded as `Except`), the network
(`requests.head` content-type probe and `requests.get`, each possibly
raising), and the optional docling capability.  `graceExists`, `mkGrace` and
`openOut` model `os.path.exists(GRACE_DIR)`, `os.makedirs` and opening the
output file, which can raise on permission errors. -/
structure World : Type where
  fs : String → FsEntry
  graceExists : Bool
  mkGrace : Except String Unit
  openOut : Except String Unit
  probe : String → Option String
  httpGet : String → Except String String
  hasDocling : Bool
  doclingFile : String → Except String String
  doclingBytes : String → Except String String

/-! The Content Normalizer.  In the program this is `BeautifulSoup`
(`html.parser`, with `script`/`style`/`nav`/`footer`/`iframe` elements
decomposed) followed by `markdownify`; both are third-party libraries whose
code is not part of this repository. -/

/-- Drop everything up to and including the first occurrence of `pat`
(helper for element stripping; if `pat` does not occur the rest is dropped,
matching the parser treating the unterminated element as engulfing the
remainder). -/
def dropThroughAux (pat : List Char) : Nat → List Char → List Char
  | _, [] => []
  | 0, l => l
  | fuel + 1, c :: rest =>
    if startsWithL (c :: rest) pat = true then (c :: rest).drop pat.length
    else dropThroughAux pat fuel rest

/-- Remove every `<tag ...> ... </tag>` block for one tag name. -/
def stripElemAux (tag : List Char) : Nat → List Char → List Char
  | _, [] => []
  | 0, l => l
  | fuel + 1, c :: rest =>
    if startsWithL (c :: rest) ('<' :: tag) = true then
      stripElemAux tag fuel
        (dropThroughAux ('<' :: '/' :: (tag ++ ['>'])) rest.length (c :: rest))
    else c :: stripElemAux tag fuel rest

/-- Remove every `<tag ...> ... </tag>` block for one tag name. -/
def stripElem (tag : String) (l : List Char) : List Char :=
  stripElemAux tag.data l.length l

/-- Drop the remaining markup tags, keeping their text. -/
def dropTagsAux : Nat → List Char → List Char
  | _, [] => []
  | 0, l => l
  | fuel + 1, c :: rest =>
    if c = '<' then dropTagsAux fuel (dropThroughAux ['>'] rest.length rest)
    else c :: dropTagsAux fuel rest

/-- Modelled from the spec: the Content Normalizer (§4.2), realised in the
program by the third-party `BeautifulSoup` and `markdownify` libraries whose
sources are not in `src/`.  Elements with no textual value
(`script`/`style`/`nav`/`footer`/`iframe`) are stripped together with their
contents, and the remaining markup is converted to plain structured text
(modelled as dropping the remaining tags and keeping their text; text
without markup passes through unchanged). -/
def normalize_markup (s : String) : String :=
  String.mk (dropTagsAux
    (stripElem "iframe" (stripElem "footer" (stripElem "nav"
      (stripElem "style" (stripElem "script" s.data))))).length
    (stripElem "iframe" (stripElem "footer" (stripElem "nav"
      (stripElem "style" (stripElem "script" s.data))))))

/-! `fetch_source` and its helpers. -/

/-- The advisory string `parse_pdf_docling` returns when docling is absent. -/
def doclingMissingMsg : String := "[ERROR] 'docling' missing. Run: pip install docling"

/-- `parse_pdf_docling` applied to a local file path. -/
def parse_pdf_docling (w : World) (path : String) : String :=
  if ¬ w.hasDocling then doclingMissingMsg
  else
    match w.doclingFile path with
    | .ok t => t
    | .error e => "[ERROR] Docling parsing failed: " ++ e

/-- `parse_pdf_docling` applied to the temporary file holding a downloaded
body (the conversion outcome is a function of the downloaded bytes). -/
def parse_pdf_doclingBytes (w : World) (body : String) : String :=
  if ¬ w.hasDocling then doclingMissingMsg
  else
    match w.doclingBytes body with
    | .ok t => t
    | .error e => "[ERROR] Docling parsing failed: " ++ e

/-- `fetch_source`: resolve one source reference to embedded text.  Every
exception inside the function's `try` is caught and rendered as
`"Error processing {source}: {e}"`, so the function is total. -/
def fetch_source (w : World) (source : String) : String :=
  let pdfByName := strEndsWith (pyLower source) ".pdf"
  let urlFlag := strStartsWith source "http://" || strStartsWith source "https://"
  let pdfFlag :=
    if urlFlag ∧ pdfByName = false then
      match w.probe source with
      | some ct => subStr ct "application/pdf"
      | none => false
    else pdfByName
  if urlFlag then
    match w.httpGet source with
    | .error e => "Error processing " ++ source ++ ": " ++ e
    | .ok body =>
      if pdfFlag then parse_pdf_doclingBytes w body
      else normalize_markup body
  else
    if pdfFlag then parse_pdf_docling w source
    else
      match w.fs source with
      | .absent => "Error: File not found " ++ source
      | .dir _ =>
        "Error processing " ++ source ++ ": [Errno 21] Is a directory: '" ++ source ++ "'"
      | .file (.error e) => "Error processing " ++ source ++ ": " ++ e
      | .file (.ok c) => normalize_markup c

/-- `get_file_content`: empty string when the path does not exist, otherwise
the read result (whose failure propagates as an exception). -/
def get_file_content (w : World) (path : String) : Except String String :=
  match w.fs path with
  | .absent => .ok ""
  | .dir _ => .error ("[Errno 21] Is a directory: '" ++ path ++ "'")
  | .file r => r

/-- `get_grace_content`: read from the hidden `.grace` directory. -/
def get_grace_content (w : World) (filename : String) : Except String String :=
  get_file_content w (pyJoin GRACE_DIR filename)

/-! `os.walk` with the in-place pruning `dirs[:] = [d for d in dirs if d not
in exclude_dirs]` performed by every caller, and the tree renderer. -/

mutual
/-- Top-down `os.walk` restricted to what the callers consume: the visited
root (as a joined path string) and its file names, with excluded directory
names pruned before descent at every level. -/
def pyWalk (ex : List String) (path : String) : Dir → List (String × List String)
  | .node subs files => (path, files) :: pyWalkSubs ex path subs
/-- Walk the (pruned) subdirectory list in order. -/
def pyWalkSubs (ex : List String) (path : String) : DirList → List (String × List String)
  | .dnil => []
  | .dcons n d rest =>
    (if ex.contains n then [] else pyWalk ex (pyJoin path n) d) ++ pyWalkSubs ex path rest
end

/-- The walk performed for a start path: `os.walk` of a non-directory yields
nothing. -/
def walkEntries (w : World) (ex : List String) (start : String) :
    List (String × List String) :=
  match w.fs start with
  | .dir d => pyWalk ex start d
  | _ => []

/-- The two tree lines printed for one visited root: the directory line and
one line per file. -/
def renderEntry (start : String) (e : String × List String) : String :=
  let level := countCharL (pyReplace e.1 start "").data '/'
  let indent := strRepeat "    " (level + 1)
  indent ++ "|-- " ++ pyBasename e.1 ++ "/\n" ++
    strConcat (e.2.map (fun f => indent ++ "    |-- " ++ f ++ "\n"))

/-- `generate_multi_tree`. -/
def generate_multi_tree (w : World) (start_paths : List String) (exclude_dirs : List String) :
    String :=
  strConcat (start_paths.map (fun sp =>
    match w.fs sp with
    | .absent => "[MISSING DIRECTORY: " ++ sp ++ "]\n"
    | _ =>
      "ROOT: " ++ sp ++ "/\n" ++
        strConcat ((walkEntries w exclude_dirs sp).map (renderEntry sp)) ++ "\n"))

/-! `extract_skeleton`. -/

/-- The declaration-introducing prefixes tested after `strip()`. -/
def skeletonPrefixes : List (List Char) :=
  ["def ".data, "class ".data, "import ".data, "from ".data, "@".data, "async ".data]

/-- One line survives the skeleton filter if its stripped form starts with a
declaration prefix or the line contains a docstring delimiter anywhere. -/
def keepLine (l : List Char) : Bool :=
  skeletonPrefixes.any (fun p => startsWithL (pyStripL l) p) || hasSubL l "\"\"\"".data

/-- `extract_skeleton`. -/
def extract_skeleton (content : String) : String :=
  String.mk (joinNL ((pySplitNL content.data).filter keepLine))

/-! `build_context`. -/

/-- The CDATA escaping `content.replace("]]>", "]]]]><![CDATA[>")` applied to
embedded blocks. -/
def cdataEscape (s : String) : String := pyReplace s "]]>" "]]]]><![CDATA[>"

/-- The common exclude list. -/
def excludeDirs : List String :=
  [".git", "__pycache__", "venv", "node_modules", "specs", ".idea", ".vscode",
   ".grace", "dist", "build"]

/-- The extension-based binary/asset skip test `file.endswith((...))`. -/
def skipExt (f : String) : Bool :=
  strEndsWith f ".pyc" || strEndsWith f ".png" || strEndsWith f ".jpg" ||
    strEndsWith f ".exe"

/-- One `<article>` block of the RESEARCH payload. -/
def articleChunk (w : World) (source_path : String) : String :=
  "    <article source=\"" ++ source_path ++ "\"><![CDATA[\n" ++
    cdataEscape (fetch_source w source_path) ++ "\n]]></article>\n"

/-- One `<file ... type="skeleton">` block of the ARCHITECT payload; note
that the skeleton text is embedded without the CDATA escaping. -/
def fileChunkSkeleton (path content : String) : String :=
  "    <file path=\"" ++ path ++ "\" type=\"skeleton\"><![CDATA[\n" ++
    extract_skeleton content ++ "\n]]></file>\n"

/-- One `<file>` block of the REFACTOR and DEVELOPER payloads. -/
def fileChunkRaw (path content : String) : String :=
  "    <file path=\"" ++ path ++ "\"><![CDATA[\n" ++ cdataEscape content ++
    "\n]]></file>\n"

/-- The inner file loop over one visited root: skip the binary/asset
extensions, read each remaining file (a read failure raises), and emit its
block. -/
def filesChunks (w : World) (mk : String → String → String) (r : String) :
    List String → Except String String
  | [] => .ok ""
  | f :: fs =>
    if skipExt f then filesChunks w mk r fs
    else
      match get_file_content w (pyJoin r f) with
      | .error e => .error e
      | .ok c =>
        match filesChunks w mk r fs with
        | .error e => .error e
        | .ok rest => .ok (mk (pyJoin r f) c ++ rest)

/-- The file loop over the walk of one source dir. -/
def entriesChunks (w : World) (mk : String → String → String) :
    List (String × List String) → Except String String
  | [] => .ok ""
  | (r, fs) :: rest =>
    match filesChunks w mk r fs with
    | .error e => .error e
    | .ok a =>
      match entriesChunks w mk rest with
      | .error e => .error e
      | .ok b => .ok (a ++ b)

/-- The outer loop over the configured source dirs (`continue` on a missing
dir). -/
def dirsChunks (w : World) (mk : String → String → String) :
    List String → Except String String
  | [] => .ok ""
  | sd :: rest =>
    match w.fs sd with
    | .dir d =>
      match entriesChunks w mk (pyWalk excludeDirs sd d) with
      | .error e => .error e
      | .ok a =>
        match dirsChunks w mk rest with
        | .error e => .error e
        | .ok b => .ok (a ++ b)
    | .file _ =>
      match dirsChunks w mk rest with
      | .error e => .error e
      | .ok b => .ok b
    | .absent => dirsChunks w mk rest

/-- The `SOURCES.txt` line filter: strip each line, keep it when the stripped
line is non-empty and the raw line does not start with `#`. -/
def pySourceLines (sc : String) : List String :=
  ((pyFileLines sc.data).filter
      (fun l => !(pyStripL l).isEmpty && !startsWithL l ['#'])).map
    (fun l => String.mk (pyStripL l))

/-- The `<raw_sources>` section: absent `SOURCES.txt` leaves the wrapper
empty; reading it can raise; each surviving line yields one article block. -/
def raw_sources_section (w : World) : Except String String :=
  match w.fs "SOURCES.txt" with
  | .absent => .ok ("\n  <raw_sources>\n" ++ "  </raw_sources>\n")
  | .dir _ => .error ("[Errno 21] Is a directory: 'SOURCES.txt'")
  | .file (.error e) => .error e
  | .file (.ok sc) =>
    .ok ("\n  <raw_sources>\n" ++
      strConcat ((pySourceLines sc).map (articleChunk w)) ++ "  </raw_sources>\n")

/-- The RESEARCH-mode body. -/
def researchBody (w : World) : Except String String :=
  match get_grace_content w "MANUAL_RULES.md" with
  | .error e => .error e
  | .ok mr =>
    match raw_sources_section w with
    | .error e => .error e
    | .ok rs =>
      .ok ((if mr = "" then "" else
        "\n  <user_logic type=\"axiom\"><![CDATA[\n" ++ mr ++ "\n]]></user_logic>\n") ++ rs)

/-- The ARCHITECT-mode body. -/
def architectBody (w : World) (source_dirs : List String) : Except String String :=
  match get_grace_content w "KNOWLEDGE.md" with
  | .error e => .error e
  | .ok specs =>
    match dirsChunks w fileChunkSkeleton source_dirs with
    | .error e => .error e
    | .ok chunks =>
      .ok ((if specs = "" then "" else
          "\n  <research_specs><![CDATA[\n" ++ specs ++ "\n]]></research_specs>\n") ++
        "\n  <current_codebase_structure>\n" ++
        "    <tree><![CDATA[\n" ++ generate_multi_tree w source_dirs excludeDirs ++
        "\n]]></tree>\n" ++ chunks ++ "  </current_codebase_structure>\n")

/-- The REFACTOR-mode body. -/
def refactorBody (w : World) (source_dirs : List String) : Except String String :=
  match get_grace_content w "KNOWLEDGE.md" with
  | .error e => .error e
  | .ok specs =>
    match dirsChunks w fileChunkRaw source_dirs with
    | .error e => .error e
    | .ok chunks =>
      .ok ((if specs = "" then "" else
          "\n  <research_specs><![CDATA[\n" ++ specs ++ "\n]]></research_specs>\n") ++
        "\n  <source_code_raw>\n" ++
        "    <tree><![CDATA[\n" ++ generate_multi_tree w source_dirs excludeDirs ++
        "\n]]></tree>\n" ++ chunks ++ "  </source_code_raw>\n")

/-- The DEVELOPER-mode body: the payload opens with `<source_code>` yet its
closing write is `</source_code_raw>`, exactly as in the source. -/
def developerBody (w : World) (source_dirs : List String) : Except String String :=
  match get_grace_content w "ARCHITECTURE.md" with
  | .error e => .error e
  | .ok arch =>
    match dirsChunks w fileChunkRaw source_dirs with
    | .error e => .error e
    | .ok chunks =>
      .ok ((if arch = "" then "" else
          "\n  <architecture_context><![CDATA[\n" ++ arch ++ "\n]]></architecture_context>\n") ++
        "\n  <source_code>\n    <tree><![CDATA[\n" ++
        generate_multi_tree w source_dirs excludeDirs ++
        "\n]]></tree>\n" ++ chunks ++ "  </source_code_raw>\n")

/-- The mode-specific payload (no section for an unknown mode). -/
def modeBody (w : World) (mode : String) (source_dirs : List String) :
    Except String String :=
  if mode = "RESEARCH" then researchBody w
  else if mode = "ARCHITECT" then architectBody w source_dirs
  else if mode = "REFACTOR" then refactorBody w source_dirs
  else if mode = "DEVELOPER" then developerBody w source_dirs
  else .ok ""

/-- The fixed block embedding the mission text, written for every mode. -/
def missionBlock (mission_text : String) : String :=
  "\n  <mission><![CDATA[\n" ++ mission_text ++ "\n]]></mission>\n"

/-- `build_context`: the value is the full text written to the output file;
an `.error` is an uncaught exception terminating the run. -/
def build_context (w : World) (mode : String) (source_dirs : List String)
    (mission_text : String) : Except String String :=
  match (if w.graceExists then Except.ok () else w.mkGrace) with
  | .error e => .error e
  | .ok _ =>
    match w.openOut with
    | .error e => .error e
    | .ok _ =>
      match modeBody w mode source_dirs with
      | .error e => .error e
      | .ok body =>
        .ok ("<grace_context mode=\"" ++ mode ++ "\">\n" ++ promptFor mode ++
          missionBlock mission_text ++ body ++ "</grace_context>\n")

/-! A CDATA-aware XML well-formedness checker: a character-level scanner that
tokenises start tags (with quoted attributes and self-closing slashes), end
tags and `<![CDATA[ ... ]]>` sections, and matches end tags against a stack
of open element names.  A document is well-formed when the scan ends in
plain text state with an empty stack and never errs. -/

/-- Scanner state. -/
inductive XState : Type where
  | err : XState
  | txt : List (List Char) → XState
  | lt : List (List Char) → XState
  | bang : Nat → List (List Char) → XState
  | cdata : List Char → List (List Char) → XState
  | closeT : List Char → List (List Char) → XState
  | openN : List Char → List (List Char) → XState
  | openA : List Char → Option Char → Bool → List (List Char) → XState
deriving DecidableEq

/-- The character sequence expected after `<` for a CDATA section. -/
def cdataOpen : List Char := "![CDATA[".data

/-- Characters ending a tag name. -/
def isNameEnd (c : Char) : Bool := c == ' ' || c == '\t' || c == '\n' || c == '\x0d'

/-- Keep the last two characters seen inside a CDATA section. -/
def slide2 (w : List Char) (c : Char) : List Char :=
  match w with
  | [_, b] => [b, c]
  | l => l ++ [c]

/-- One scanner step. -/
def xstep : XState → Char → XState
  | .err, _ => .err
  | .txt st, c => if c = '<' then .lt st else .txt st
  | .lt st, c =>
    if c = '/' then .closeT [] st
    else if c = '!' then .bang 1 st
    else if c = '>' ∨ c = '<' ∨ isNameEnd c = true then .err
    else .openN [c] st
  | .bang k st, c =>
    match cdataOpen.get? k with
    | some d =>
      if c = d then (if k + 1 = cdataOpen.length then .cdata [] st else .bang (k + 1) st)
      else .err
    | none => .err
  | .cdata w st, c => if w = [']', ']'] ∧ c = '>' then .txt st else .cdata (slide2 w c) st
  | .closeT n st, c =>
    if c = '>' then
      match st with
      | t :: rest => if t = n then .txt rest else .err
      | [] => .err
    else .closeT (n ++ [c]) st
  | .openN n st, c =>
    if c = '>' then .txt (n :: st)
    else if c = '/' then .openA n none true st
    else if isNameEnd c then .openA n none false st
    else .openN (n ++ [c]) st
  | .openA n (some q) _ st, c =>
    if c = q then .openA n none false st else .openA n (some q) false st
  | .openA n none slash st, c =>
    if c = '"' then .openA n (some '"') false st
    else if c = '\'' then .openA n (some '\'') false st
    else if c = '/' then .openA n none true st
    else if c = '>' then (if slash then .txt st else .txt (n :: st))
    else .openA n none false st

/-- Scan a whole document. -/
def xmlScan (s : String) : XState := s.data.foldl xstep (.txt [])

/-- Well-formedness: the scan succeeds and every element got closed. -/
def xmlWellFormed (s : String) : Bool :=
  match xmlScan s with
  | .txt [] => true
  | _ => false

theorem foldl_xstep_err (l : List Char) : l.foldl xstep .err = .err := by
  induction l with
  | nil => rfl
  | cons c r ih => simpa [xstep] using ih

/-- Once a prefix of the document drives the scanner into the error state, no
continuation makes the document well-formed. -/
theorem xmlWellFormed_of_prefix_err (a b : String)
    (h : a.data.foldl xstep (XState.txt []) = .err) :
    xmlWellFormed (a ++ b) = false := by
  unfold xmlWellFormed xmlScan
  rw [strData_append, List.foldl_append, h, foldl_xstep_err]

/-! Structure of a successful run. -/

/-- Inversion for a successful `build_context` run: the written document is
the header, the mode prompt, the mission block, the mode body and the closing
tag, in that order. -/
theorem build_ok_decomp (w : World) (mode : String) (dirs : List String)
    (mission out : String) (h : build_context w mode dirs mission = .ok out) :
    ∃ body, modeBody w mode dirs = .ok body ∧
      out = "<grace_context mode=\"" ++ mode ++ "\">\n" ++ promptFor mode ++
        missionBlock mission ++ body ++ "</grace_context>\n" := by
  unfold build_context at h
  split at h
  · exact absurd h (by simp)
  · split at h
    · exact absurd h (by simp)
    · split at h
      · exact absurd h (by simp)
      · rename_i body hbody
        exact ⟨body, hbody, by injection h with h2; exact h2.symm⟩

/-- Introduction for a successful run: when the `.grace` directory step, the
output-file open and the mode body all succeed, the run completes and writes
the assembled document. -/
theorem build_ok_intro (w : World) (mode : String) (dirs : List String)
    (mission body : String)
    (hg : (if w.graceExists then Except.ok () else w.mkGrace) = Except.ok ())
    (ho : w.openOut = Except.ok ())
    (hb : modeBody w mode dirs = .ok body) :
    build_context w mode dirs mission =
      .ok ("<grace_context mode=\"" ++ mode ++ "\">\n" ++ promptFor mode ++
        missionBlock mission ++ body ++ "</grace_context>\n") := by
  unfold build_context
  rw [hg, ho, hb]

/-- The mode dispatch at `"DEVELOPER"`. -/
theorem modeBody_developer (w : World) (dirs : List String) :
    modeBody w "DEVELOPER" dirs = developerBody w dirs := rfl

/-- The fixed document prefix written by every DEVELOPER run. -/
def devPrefix : String := "<grace_context mode=\"" ++ "DEVELOPER" ++ "\">\n" ++ DEVELOPER_PROMPT

/-- Scanning the fixed DEVELOPER prefix already drives the XML scanner into
the error state (the prompt's rules text mentions `<architecture_context>`,
which the scanner reads as an element that is never closed before
`</rules>`). -/
theorem devPrefix_scan_err : devPrefix.data.foldl xstep (XState.txt []) = .err := by
  have e0 : ("<grace_context mode=\"" ++ "DEVELOPER" ++ "\">\n" : String).data.foldl
      xstep (XState.txt []) = .txt ["grace_context".data] := by decide
  have e1 : DEV_P1.data.foldl xstep (XState.txt ["grace_context".data]) =
      .txt ["meta_instructions".data, "grace_context".data] := by decide
  have e2 : AAG_DEFINITION.data.foldl xstep
      (XState.txt ["meta_instructions".data, "grace_context".data]) =
      .txt ["meta_instructions".data, "grace_context".data] := by decide
  have e3 : DEV_P2.data.foldl xstep
      (XState.txt ["meta_instructions".data, "grace_context".data]) =
      .txt ["meta_instructions".data, "grace_context".data] := by decide
  have e4 : DEV_P3.data.foldl xstep
      (XState.txt ["meta_instructions".data, "grace_context".data]) = .err := by decide
  show ((("<grace_context mode=\"" ++ "DEVELOPER" ++ "\">\n" : String)) ++
      (DEV_P1 ++ AAG_DEFINITION ++ DEV_P2 ++ DEV_P3)).data.foldl xstep (XState.txt []) = .err
  rw [strData_append, List.foldl_append, e0, strData_append, strData_append,
    strData_append, List.foldl_append, List.foldl_append, List.foldl_append,
    e1, e2, e3, e4]

/-- The mode dispatch of the prompt table at `"DEVELOPER"`. -/
theorem promptFor_developer : promptFor "DEVELOPER" = DEVELOPER_PROMPT := rfl

/-- Inversion for a successful DEVELOPER body. -/
theorem developerBody_ok_decomp (w : World) (dirs : List String) (body : String)
    (h : developerBody w dirs = .ok body) :
    ∃ arch chunks, get_grace_content w "ARCHITECTURE.md" = .ok arch ∧
      dirsChunks w fileChunkRaw dirs = .ok chunks ∧
      body = (if arch = "" then "" else
          "\n  <architecture_context><![CDATA[\n" ++ arch ++ "\n]]></architecture_context>\n") ++
        "\n  <source_code>\n    <tree><![CDATA[\n" ++
        generate_multi_tree w dirs excludeDirs ++ "\n]]></tree>\n" ++ chunks ++
        "  </source_code_raw>\n" := by
  unfold developerBody at h
  split at h
  · exact absurd h (by simp)
  · rename_i arch ha
    split at h
    · exact absurd h (by simp)
    · rename_i chunks hc
      exact ⟨arch, chunks, ha, hc, by injection h with h2; exact h2.symm⟩

/-- C4: in DEVELOPER mode, whatever the environment, source roots and
mission, the payload section of the written document is opened by the
`<source_code>` write yet closed by the `</source_code_raw>` write, and the
document is never well-formed XML. -/
theorem C4_developer_payload_mismatch (w : World) (dirs : List String)
    (mission out : String) (h : build_context w "DEVELOPER" dirs mission = .ok out) :
    (∃ pre mid, out = pre ++ "\n  <source_code>\n    <tree><![CDATA[\n" ++ mid ++
      "  </source_code_raw>\n" ++ "</grace_context>\n") ∧
    xmlWellFormed out = false := by
  obtain ⟨body, hb, hout⟩ := build_ok_decomp w "DEVELOPER" dirs mission out h
  rw [modeBody_developer] at hb
  obtain ⟨arch, chunks, _, _, hbody⟩ := developerBody_ok_decomp w dirs body hb
  subst hbody
  subst hout
  constructor
  · refine ⟨"<grace_context mode=\"" ++ "DEVELOPER" ++ "\">\n" ++ promptFor "DEVELOPER" ++
      missionBlock mission ++ (if arch = "" then "" else
        "\n  <architecture_context><![CDATA[\n" ++ arch ++ "\n]]></architecture_context>\n"),
      generate_multi_tree w dirs excludeDirs ++ "\n]]></tree>\n" ++ chunks, ?_⟩
    simp only [strAppend_assoc]
  · have hsplit : "<grace_context mode=\"" ++ "DEVELOPER" ++ "\">\n" ++ promptFor "DEVELOPER" ++
        missionBlock mission ++
        ((if arch = "" then "" else
          "\n  <architecture_context><![CDATA[\n" ++ arch ++ "\n]]></architecture_context>\n") ++
          "\n  <source_code>\n    <tree><![CDATA[\n" ++
          generate_multi_tree w dirs excludeDirs ++ "\n]]></tree>\n" ++ chunks ++
          "  </source_code_raw>\n") ++ "</grace_context>\n" =
        devPrefix ++ (missionBlock mission ++
          ((if arch = "" then "" else
            "\n  <architecture_context><![CDATA[\n" ++ arch ++ "\n]]></architecture_context>\n") ++
          ("\n  <source_code>\n    <tree><![CDATA[\n" ++
          (generate_multi_tree w dirs excludeDirs ++ ("\n]]></tree>\n" ++ (chunks ++
          ("  </source_code_raw>\n" ++ "</grace_context>\n"))))))) := by
      rw [promptFor_developer]
      unfold devPrefix
      simp only [strAppend_assoc]
    rw [hsplit]
    exact xmlWellFormed_of_prefix_err _ _ devPrefix_scan_err

/-- A minimal environment: empty filesystem, no network, no docling, both
output steps succeeding. -/
def w0 : World where
  fs := fun _ => FsEntry.absent
  graceExists := true
  mkGrace := .ok ()
  openOut := .ok ()
  probe := fun _ => none
  httpGet := fun _ => .error "no network"
  hasDocling := false
  doclingFile := fun _ => .error "no docling"
  doclingBytes := fun _ => .error "no docling"

/-- The document written by a DEVELOPER run in the minimal environment. -/
def devOut0 : String :=
  match build_context w0 "DEVELOPER" [] "m" with
  | .ok s => s
  | .error _ => ""

/-- Witness for C4 at a concrete run. -/
theorem C4_developer_payload_mismatch_witness :
    (∃ pre mid, devOut0 = pre ++ "\n  <source_code>\n    <tree><![CDATA[\n" ++ mid ++
      "  </source_code_raw>\n" ++ "</grace_context>\n") ∧
    xmlWellFormed devOut0 = false :=
  C4_developer_payload_mismatch w0 [] "m" devOut0 rfl

/-- C10: in every mode the mission text is embedded in the mission block
verbatim — the block is the fixed delimiters around the unmodified mission
string, with no closing-delimiter neutralization applied — so any `]]>` in
the mission is written unchanged inside the block, and the block occurs in
the written document. -/
theorem C10_mission_verbatim (w : World) (mode : String) (dirs : List String)
    (mission out : String) (h : build_context w mode dirs mission = .ok out) :
    (∃ pre post, out = pre ++ missionBlock mission ++ post) ∧
    missionBlock mission = "\n  <mission><![CDATA[\n" ++ mission ++ "\n]]></mission>\n" ∧
    subStr out (missionBlock mission) = true := by
  obtain ⟨body, _, hout⟩ := build_ok_decomp w mode dirs mission out h
  have h2 : out = ("<grace_context mode=\"" ++ mode ++ "\">\n" ++ promptFor mode) ++
      (missionBlock mission ++ (body ++ "</grace_context>\n")) := by
    rw [hout]; simp only [strAppend_assoc]
  refine ⟨⟨"<grace_context mode=\"" ++ mode ++ "\">\n" ++ promptFor mode,
    body ++ "</grace_context>\n", by rw [h2]; simp only [strAppend_assoc]⟩, rfl, ?_⟩
  rw [h2]
  exact subStr_decomp _ _ _

/-- The document written by a REFACTOR run in the minimal environment whose
mission contains the closing delimiter. -/
def refOut0 : String :=
  match build_context w0 "REFACTOR" [] "a]]>b" with
  | .ok s => s
  | .error _ => ""

/-- Witness for C10 at a concrete run with a `]]>`-containing mission. -/
theorem C10_mission_verbatim_witness :
    (∃ pre post, refOut0 = pre ++ missionBlock "a]]>b" ++ post) ∧
    missionBlock "a]]>b" = "\n  <mission><![CDATA[\n" ++ "a]]>b" ++ "\n]]></mission>\n" ∧
    subStr refOut0 (missionBlock "a]]>b") = true :=
  C10_mission_verbatim w0 "REFACTOR" [] "a]]>b" refOut0 rfl

/-! C7: idempotence of `extract_skeleton`. -/

theorem pySplitNL_ne_nil (l : List Char) : pySplitNL l ≠ [] := by
  cases l with
  | nil => simp [pySplitNL]
  | cons c r =>
    by_cases hc : c = '\n'
    · simp [pySplitNL, hc]
    · cases hsr : pySplitNL r with
      | nil => simp [pySplitNL, hc, hsr]
      | cons h t => simp [pySplitNL, hc, hsr]

theorem mem_pySplitNL_no_nl (l x : List Char) (hx : x ∈ pySplitNL l) : '\n' ∉ x := by
  induction l generalizing x with
  | nil =>
    simp [pySplitNL] at hx
    simp [hx]
  | cons c r ih =>
    by_cases hc : c = '\n'
    · rw [pySplitNL, if_pos hc] at hx
      rcases List.mem_cons.mp hx with h | h
      · simp [h]
      · exact ih x h
    · rw [pySplitNL, if_neg hc] at hx
      cases hsr : pySplitNL r with
      | nil => exact absurd hsr (pySplitNL_ne_nil r)
      | cons h t =>
        rw [hsr] at hx
        rcases List.mem_cons.mp hx with hxe | hxm
        · subst hxe
          intro hmem
          rcases List.mem_cons.mp hmem with he | hm
          · exact hc he.symm
          · exact ih h (hsr ▸ List.mem_cons_self h t) hm
        · exact ih x (hsr ▸ List.mem_cons.mpr (Or.inr hxm))

theorem pySplitNL_no_nl (y : List Char) (hy : '\n' ∉ y) : pySplitNL y = [y] := by
  induction y with
  | nil => rfl
  | cons c r ih =>
    have hc : c ≠ '\n' := fun he => hy (he ▸ List.mem_cons_self c r)
    have hr : '\n' ∉ r := fun hm => hy (List.mem_cons.mpr (Or.inr hm))
    rw [pySplitNL, if_neg hc, ih hr]

theorem pySplitNL_append_nl (y r : List Char) (hy : '\n' ∉ y) :
    pySplitNL (y ++ '\n' :: r) = y :: pySplitNL r := by
  induction y with
  | nil => simp [pySplitNL]
  | cons c ys ih =>
    have hc : c ≠ '\n' := fun he => hy (he ▸ List.mem_cons_self c ys)
    have hys : '\n' ∉ ys := fun hm => hy (List.mem_cons.mpr (Or.inr hm))
    rw [List.cons_append, pySplitNL, if_neg hc, ih hys]

theorem pySplitNL_joinNL (ys : List (List Char)) (hnl : ∀ y ∈ ys, '\n' ∉ y)
    (hne : ys ≠ []) : pySplitNL (joinNL ys) = ys := by
  induction ys with
  | nil => exact absurd rfl hne
  | cons y rest ih =>
    cases rest with
    | nil =>
      rw [joinNL]
      exact pySplitNL_no_nl y (hnl y (List.mem_cons_self y []))
    | cons y2 r2 =>
      rw [joinNL, pySplitNL_append_nl y _ (hnl y (List.mem_cons_self y _)),
        ih (fun z hz => hnl z (List.mem_cons.mpr (Or.inr hz))) (fun h => List.noConfusion h)]
      intro h
      exact List.noConfusion h

/-- C7: skeleton extraction is idempotent — reducing an already reduced text
returns it unchanged, for every input string. -/
theorem C7_extract_skeleton_idempotent (content : String) :
    extract_skeleton (extract_skeleton content) = extract_skeleton content := by
  unfold extract_skeleton
  cases hks : (pySplitNL content.data).filter keepLine with
  | nil => rfl
  | cons k ks =>
    show String.mk (joinNL ((pySplitNL (joinNL (k :: ks))).filter keepLine)) =
      String.mk (joinNL (k :: ks))
    have hmem : ∀ y ∈ k :: ks, y ∈ pySplitNL content.data := by
      intro y hy
      exact List.mem_of_mem_filter (hks ▸ hy)
    have hnl : ∀ y ∈ k :: ks, '\n' ∉ y :=
      fun y hy => mem_pySplitNL_no_nl content.data y (hmem y hy)
    have hkeep : ∀ y ∈ k :: ks, keepLine y = true := by
      intro y hy
      exact List.of_mem_filter (hks ▸ hy)
    have hsj : pySplitNL (joinNL (k :: ks)) = k :: ks :=
      pySplitNL_joinNL (k :: ks) hnl (fun h => List.noConfusion h)
    rw [hsj, List.filter_eq_self.mpr hkeep]

/-! C6: the missing-local-path contract of `fetch_source`. -/

theorem subStr_suffix (x p : String) : subStr (x ++ p) p = true := by
  show hasSubL (x ++ p).data p.data = true
  rw [strData_append]
  refine hasSubL_append_right _ _ _ (hasSubL_of_startsWith _ _ ?_)
  have h := startsWithL_self_append p.data []
  simpa using h

/-- C6 counterexample: a missing local path ending in `.pdf` is routed to the
docling branch, so with docling unavailable `fetch_source` returns the fixed
advisory message, which is not a not-found message and does not contain the
path. -/
theorem C6_counterexample :
    w0.fs "missing.pdf" = FsEntry.absent ∧
    fetch_source w0 "missing.pdf" = "[ERROR] 'docling' missing. Run: pip install docling" ∧
    subStr (fetch_source w0 "missing.pdf") "missing.pdf" = false := by
  refine ⟨rfl, rfl, by decide⟩

/-- C6 amended: for every local (non-URL) reference not ending in `.pdf`
(case-insensitively) whose path does not exist, `fetch_source` returns the
not-found message `"Error: File not found {path}"`, which contains the
literal path, and raises nothing. -/
theorem C6_notfound_message (w : World) (p : String)
    (h1 : strStartsWith p "http://" = false)
    (h2 : strStartsWith p "https://" = false)
    (hpdf : strEndsWith (pyLower p) ".pdf" = false)
    (habs : w.fs p = FsEntry.absent) :
    fetch_source w p = "Error: File not found " ++ p ∧
    subStr ("Error: File not found " ++ p) p = true := by
  constructor
  · unfold fetch_source
    simp [h1, h2, hpdf, habs]
  · exact subStr_suffix _ _

/-- Witness for the amended C6 at a concrete missing path. -/
theorem C6_notfound_message_witness :
    fetch_source w0 "/nope/notes.txt" = "Error: File not found " ++ "/nope/notes.txt" ∧
    subStr ("Error: File not found " ++ "/nope/notes.txt") "/nope/notes.txt" = true :=
  C6_notfound_message w0 "/nope/notes.txt" rfl rfl rfl rfl

/-! C2: what `fetch_source` returns for an existing local file. -/

/-- An environment holding one local text file whose content happens to be
markup. -/
def w2 : World :=
  { w0 with fs := fun p =>
      if p = "notes.txt" then FsEntry.file (Except.ok "<script>x</script>hello")
      else FsEntry.absent }

/-- C2 counterexample: an existing local text file is not returned verbatim —
its content is parsed as markup, the script element is stripped and the rest
converted, so the returned text differs from the file content. -/
theorem C2_counterexample :
    w2.fs "notes.txt" = FsEntry.file (Except.ok "<script>x</script>hello") ∧
    fetch_source w2 "notes.txt" = "hello" ∧
    "hello" ≠ "<script>x</script>hello" := by
  refine ⟨rfl, by decide, by decide⟩

/-- C2 amended: for every existing readable local (non-URL, non-`.pdf`) file,
`fetch_source` returns the Content-Normalizer transform of the file's UTF-8
content — the content parsed as markup with script/style/nav/footer/iframe
elements stripped and the remaining markup converted — rather than the exact
content itself. -/
theorem C2_fetch_normalizes (w : World) (p c : String)
    (h1 : strStartsWith p "http://" = false)
    (h2 : strStartsWith p "https://" = false)
    (hpdf : strEndsWith (pyLower p) ".pdf" = false)
    (hf : w.fs p = FsEntry.file (Except.ok c)) :
    fetch_source w p = normalize_markup c := by
  unfold fetch_source
  simp [h1, h2, hpdf, hf]

/-- Witness for the amended C2 at the concrete markup file. -/
theorem C2_fetch_normalizes_witness :
    fetch_source w2 "notes.txt" = normalize_markup "<script>x</script>hello" :=
  C2_fetch_normalizes w2 "notes.txt" "<script>x</script>hello" rfl rfl rfl rfl

/-! C5: pruning of excluded directories. -/

/-- `os.walk` roots are joined component chains. -/
def chainJoin (path : String) (cs : List String) : String := cs.foldl pyJoin path

mutual
/-- Every root visited by the pruned walk is reached from the start path only
through components that are not in the exclusion set. -/
theorem pyWalk_chain (ex : List String) (path : String) (d : Dir) :
    ∀ r fs, (r, fs) ∈ pyWalk ex path d →
      ∃ cs, r = chainJoin path cs ∧ ∀ c ∈ cs, ex.contains c = false :=
  match d with
  | .node subs _files => by
    intro r fs h
    rw [pyWalk] at h
    rcases List.mem_cons.mp h with he | hm
    · cases he
      exact ⟨[], rfl, by simp⟩
    · exact pyWalkSubs_chain ex path subs r fs hm
/-- The subdirectory-list version of `pyWalk_chain`. -/
theorem pyWalkSubs_chain (ex : List String) (path : String) (l : DirList) :
    ∀ r fs, (r, fs) ∈ pyWalkSubs ex path l →
      ∃ cs, r = chainJoin path cs ∧ ∀ c ∈ cs, ex.contains c = false :=
  match l with
  | .dnil => by
    intro r fs h
    rw [pyWalkSubs] at h
    exact absurd h (List.not_mem_nil _)
  | .dcons n d rest => by
    intro r fs h
    rw [pyWalkSubs] at h
    rcases List.mem_append.mp h with hl | hr
    · by_cases hc : ex.contains n = true
      · rw [if_pos hc] at hl
        exact absurd hl (List.not_mem_nil _)
      · rw [if_neg hc] at hl
        obtain ⟨cs, hcs, hall⟩ := pyWalk_chain ex (pyJoin path n) d r fs hl
        refine ⟨n :: cs, hcs, ?_⟩
        intro c hcm
        rcases List.mem_cons.mp hcm with he | hm2
        · subst he
          simpa using hc
        · exact hall c hm2
    · exact pyWalkSubs_chain ex path rest r fs hr
end

/-- The directory tree of the C5 scenario: the scan root has the excluded
directory `venv` as an immediate child (holding a file), a kept child `app`
and a root-level file. -/
def dir5 : Dir :=
  .node (.dcons "venv" (.node .dnil ["x.py"])
    (.dcons "app" (.node .dnil ["m.py"]) .dnil)) ["top.py"]

/-- The environment of the C5 scenario. -/
def w5 : World :=
  { w0 with fs := fun p =>
      if p = "proj" then FsEntry.dir dir5
      else if p = "proj/top.py" then FsEntry.file (Except.ok "t = 1\n")
      else if p = "proj/app/m.py" then FsEntry.file (Except.ok "def m():\n    pass\n")
      else if p = "proj/venv/x.py" then FsEntry.file (Except.ok "x = 1\n")
      else FsEntry.absent }

/-- C5 counterexample: `venv` is excluded and is an immediate child of the
scan root, yet the rendered tree listing does not contain it at all (the
claim asserts excluded names do appear as leaf names in exactly this
situation). -/
theorem C5_counterexample :
    excludeDirs.contains "venv" = true ∧
    w5.fs "proj" = FsEntry.dir (Dir.node (DirList.dcons "venv" (Dir.node DirList.dnil ["x.py"])
      (DirList.dcons "app" (Dir.node DirList.dnil ["m.py"]) DirList.dnil)) ["top.py"]) ∧
    subStr (generate_multi_tree w5 ["proj"] excludeDirs) "venv" = false := by
  refine ⟨by decide, rfl, by decide⟩

/-- C5 amended: excluded directory names are pruned at every depth and never
descended into — every visited walk root is reached only through
non-excluded components (hence no file entry lies under an excluded
directory) — and an excluded directory present at the scan root's immediate
children does not appear in the rendered tree listing at all (its subtree is
not walked either, as the concrete scenario shows). -/
theorem C5_pruned_never_descended (ex : List String) (path : String) (d : Dir)
    (r : String) (fs : List String) (h : (r, fs) ∈ pyWalk ex path d) :
    (∃ cs, r = chainJoin path cs ∧ ∀ c ∈ cs, ex.contains c = false) ∧
    subStr (generate_multi_tree w5 ["proj"] excludeDirs) "venv" = false ∧
    walkEntries w5 excludeDirs "proj" = [("proj", ["top.py"]), ("proj/app", ["m.py"])] := by
  refine ⟨pyWalk_chain ex path d r fs h, by decide, by decide⟩

/-- Witness for the amended C5 at a concrete visited root. -/
theorem C5_pruned_never_descended_witness :
    (∃ cs, "proj/app" = chainJoin "proj" cs ∧ ∀ c ∈ cs, excludeDirs.contains c = false) ∧
    subStr (generate_multi_tree w5 ["proj"] excludeDirs) "venv" = false ∧
    walkEntries w5 excludeDirs "proj" = [("proj", ["top.py"]), ("proj/app", ["m.py"])] :=
  C5_pruned_never_descended excludeDirs "proj" dir5 "proj/app" ["m.py"] (by decide)

/-! C1: neutralization of the closing delimiter in embedded blocks. -/

/-- An environment with one source root holding one Python file whose
skeleton retains a `]]>` occurrence (a decorator line). -/
def w1 : World :=
  { w0 with fs := fun p =>
      if p = "proj" then FsEntry.dir (Dir.node DirList.dnil ["a.py"])
      else if p = "proj/a.py" then FsEntry.file (Except.ok "@deco ]]>\ndef f(x):")
      else FsEntry.absent }

/-- The ARCHITECT document written in that environment. -/
def archOut1 : String :=
  match build_context w1 "ARCHITECT" ["proj"] "m" with
  | .ok s => s
  | .error _ => ""

/-- The ARCHITECT body written in that environment. -/
def archBody1 : String :=
  match modeBody w1 "ARCHITECT" ["proj"] with
  | .ok s => s
  | .error _ => ""

/-- C1 fails on the code: the ARCHITECT run embeds the skeleton (which keeps
the `]]>`-carrying decorator line) into its CDATA block with no
delimiter-splitting applied — the block in the output document carries a raw
`]]>`, although `cdataEscape` would have rewritten it. -/
theorem C1_architect_block_not_neutralized :
    extract_skeleton "@deco ]]>\ndef f(x):" = "@deco ]]>\ndef f(x):" ∧
    build_context w1 "ARCHITECT" ["proj"] "m" = .ok archOut1 ∧
    subStr archOut1 ("    <file path=\"proj/a.py\" type=\"skeleton\"><![CDATA[\n" ++
      "@deco ]]>\ndef f(x):" ++ "\n]]></file>\n") = true ∧
    cdataEscape "@deco ]]>\ndef f(x):" ≠ "@deco ]]>\ndef f(x):" := by
  refine ⟨by decide, rfl, ?_, by decide⟩
  obtain ⟨body, hbody, hout⟩ := build_ok_decomp w1 "ARCHITECT" ["proj"] "m" archOut1 rfl
  have hbs : body = archBody1 := by
    have h2 : modeBody w1 "ARCHITECT" ["proj"] = .ok archBody1 := rfl
    rw [hbody] at h2
    injection h2
  rw [hout, hbs]
  have hsplit : "<grace_context mode=\"" ++ "ARCHITECT" ++ "\">\n" ++ promptFor "ARCHITECT" ++
      missionBlock "m" ++ archBody1 ++ "</grace_context>\n" =
      ("<grace_context mode=\"" ++ "ARCHITECT" ++ "\">\n" ++ promptFor "ARCHITECT" ++
        missionBlock "m") ++ (archBody1 ++ "</grace_context>\n") := by
    simp only [strAppend_assoc]
  rw [hsplit]
  apply subStr_append_right
  apply subStr_append_left
  decide

/-! C3: which failures abort the run. -/

/-- An environment where an indexed source file exists but raises on read
(a non-UTF-8 byte, as for any binary file not on the extension skip list). -/
def w3 : World :=
  { w0 with fs := fun p =>
      if p = "src" then FsEntry.dir (Dir.node DirList.dnil ["data.bin"])
      else if p = "src/data.bin" then FsEntry.file (Except.error
        "UnicodeDecodeError: 'utf-8' codec can't decode byte 0x89 in position 0: invalid start byte")
      else FsEntry.absent }

/-- C3 fails on the code: with the output directory and output file both
creatable, a failure while reading an indexed source file under a source
root is not caught anywhere and terminates the DEVELOPER run. -/
theorem C3_counterexample_read_failure_aborts :
    w3.graceExists = true ∧ w3.openOut = Except.ok () ∧
    build_context w3 "DEVELOPER" ["src"] "m" = .error
      "UnicodeDecodeError: 'utf-8' codec can't decode byte 0x89 in position 0: invalid start byte" := by
  exact ⟨rfl, rfl, rfl⟩

/-- C3 amended: fetch-level failures are all confined inside `fetch_source`:
a RESEARCH run completes for every environment — with no assumption at all
on the network, the docling capability or the files named by the source
list — provided only that the `.grace`-directory step and the output-file
open succeed and that the two auxiliary reads the assembler itself performs
(`MANUAL_RULES.md`, `SOURCES.txt`) do not raise. -/
theorem C3_research_failures_confined (w : World) (dirs : List String) (mission : String)
    (hg : (if w.graceExists then Except.ok () else w.mkGrace) = Except.ok ())
    (ho : w.openOut = Except.ok ())
    (hmr : ∃ mr, get_grace_content w "MANUAL_RULES.md" = .ok mr)
    (hsrc : w.fs "SOURCES.txt" = FsEntry.absent ∨
      ∃ sc, w.fs "SOURCES.txt" = FsEntry.file (Except.ok sc)) :
    ∃ out, build_context w "RESEARCH" dirs mission = .ok out := by
  obtain ⟨mr, hmr⟩ := hmr
  have hrs : ∃ rs, raw_sources_section w = .ok rs := by
    rcases hsrc with h | ⟨sc, h⟩
    · refine ⟨"\n  <raw_sources>\n" ++ "  </raw_sources>\n", ?_⟩
      simp [raw_sources_section, h]
    · refine ⟨"\n  <raw_sources>\n" ++
        strConcat ((pySourceLines sc).map (articleChunk w)) ++ "  </raw_sources>\n", ?_⟩
      simp [raw_sources_section, h]
  obtain ⟨rs, hrs⟩ := hrs
  have hb : modeBody w "RESEARCH" dirs = .ok ((if mr = "" then "" else
      "\n  <user_logic type=\"axiom\"><![CDATA[\n" ++ mr ++ "\n]]></user_logic>\n") ++ rs) := by
    show researchBody w = _
    unfold researchBody
    rw [hmr, hrs]
  exact ⟨_, build_ok_intro w "RESEARCH" dirs mission _ hg ho hb⟩

/-- An environment whose source list names a URL (the network raises), a PDF
(docling is absent) and a missing local file — three fetch-level failures. -/
def wc3 : World :=
  { w0 with fs := fun p =>
      if p = "SOURCES.txt" then
        FsEntry.file (Except.ok "http://paper.example/a\nlib/spec.pdf\n/gone.txt\n")
      else FsEntry.absent }

/-- Witness for the amended C3: all three fetches fail, the run completes. -/
theorem C3_research_failures_confined_witness :
    ∃ out, build_context wc3 "RESEARCH" [] "m" = .ok out :=
  C3_research_failures_confined wc3 [] "m" rfl rfl ⟨"", rfl⟩
    (Or.inr ⟨"http://paper.example/a\nlib/spec.pdf\n/gone.txt\n", rfl⟩)

/-! C8: the RESEARCH source list. -/

/-- An environment whose `SOURCES.txt` holds one comment line, one blank line
and one nonexistent local path. -/
def w8 : World :=
  { w0 with fs := fun p =>
      if p = "SOURCES.txt" then
        FsEntry.file (Except.ok "# reference list\n\n/nope/missing.txt\n")
      else FsEntry.absent }

/-- The RESEARCH document written in that environment. -/
def resOut8 : String :=
  match build_context w8 "RESEARCH" [] "m" with
  | .ok s => s
  | .error _ => ""

/-- The RESEARCH body written in that environment. -/
def resBody8 : String :=
  match modeBody w8 "RESEARCH" [] with
  | .ok s => s
  | .error _ => ""

/-- C8: blank lines and `#`-prefixed lines of the source list are dropped and
each remaining line contributes exactly one article block tagged with that
line; in the concrete scenario (one comment, one blank, one missing path)
the section holds exactly one article, tagged with the path, whose content
is the not-found message, and that block occurs in the written document. -/
theorem C8_source_list_filtering (w : World) (sc : String)
    (hs : w.fs "SOURCES.txt" = FsEntry.file (Except.ok sc)) :
    raw_sources_section w = .ok ("\n  <raw_sources>\n" ++
      strConcat ((pySourceLines sc).map (articleChunk w)) ++ "  </raw_sources>\n") ∧
    pySourceLines "# reference list\n\n/nope/missing.txt\n" = ["/nope/missing.txt"] ∧
    articleChunk w8 "/nope/missing.txt" =
      "    <article source=\"/nope/missing.txt\"><![CDATA[\n" ++
        "Error: File not found /nope/missing.txt" ++ "\n]]></article>\n" ∧
    raw_sources_section w8 = .ok ("\n  <raw_sources>\n" ++
      strConcat [articleChunk w8 "/nope/missing.txt"] ++ "  </raw_sources>\n") ∧
    build_context w8 "RESEARCH" [] "m" = .ok resOut8 ∧
    subStr resOut8 (articleChunk w8 "/nope/missing.txt") = true := by
  refine ⟨by simp [raw_sources_section, hs], by decide, by decide, rfl, rfl, ?_⟩
  obtain ⟨body, hbody, hout⟩ := build_ok_decomp w8 "RESEARCH" [] "m" resOut8 rfl
  have hbs : body = resBody8 := by
    have h2 : modeBody w8 "RESEARCH" [] = .ok resBody8 := rfl
    rw [hbody] at h2
    injection h2
  rw [hout, hbs]
  have hsplit : "<grace_context mode=\"" ++ "RESEARCH" ++ "\">\n" ++ promptFor "RESEARCH" ++
      missionBlock "m" ++ resBody8 ++ "</grace_context>\n" =
      ("<grace_context mode=\"" ++ "RESEARCH" ++ "\">\n" ++ promptFor "RESEARCH" ++
        missionBlock "m") ++ (resBody8 ++ "</grace_context>\n") := by
    simp only [strAppend_assoc]
  rw [hsplit]
  apply subStr_append_right
  apply subStr_append_left
  decide

/-- Witness for C8 at the scenario environment itself. -/
theorem C8_source_list_filtering_witness :
    raw_sources_section w8 = .ok ("\n  <raw_sources>\n" ++
      strConcat ((pySourceLines "# reference list\n\n/nope/missing.txt\n").map
        (articleChunk w8)) ++ "  </raw_sources>\n") ∧
    pySourceLines "# reference list\n\n/nope/missing.txt\n" = ["/nope/missing.txt"] ∧
    articleChunk w8 "/nope/missing.txt" =
      "    <article source=\"/nope/missing.txt\"><![CDATA[\n" ++
        "Error: File not found /nope/missing.txt" ++ "\n]]></article>\n" ∧
    raw_sources_section w8 = .ok ("\n  <raw_sources>\n" ++
      strConcat [articleChunk w8 "/nope/missing.txt"] ++ "  </raw_sources>\n") ∧
    build_context w8 "RESEARCH" [] "m" = .ok resOut8 ∧
    subStr resOut8 (articleChunk w8 "/nope/missing.txt") = true :=
  C8_source_list_filtering w8 "# reference list\n\n/nope/missing.txt\n" rfl

/-! C9: the binary/asset extension skip list. -/

theorem subStr_refl (p : String) : subStr p p = true := by
  show hasSubL p.data p.data = true
  refine hasSubL_of_startsWith _ _ ?_
  have h := startsWithL_self_append p.data []
  simpa using h

theorem subStr_concat_of_mem (l : List String) (x p : String) (hx : x ∈ l)
    (h : subStr x p = true) : subStr (strConcat l) p = true := by
  induction l with
  | nil => exact absurd hx (List.not_mem_nil _)
  | cons a t ih =>
    show subStr (a ++ strConcat t) p = true
    rcases List.mem_cons.mp hx with he | hm
    · subst he
      exact subStr_append_left _ _ _ h
    · exact subStr_append_right _ _ _ (ih hm)

/-- The `continue` on skip-listed extensions is exactly a pre-filter: the
file loop produces the same chunks as the loop over the non-skipped files. -/
theorem filesChunks_skip_filter (w : World) (mkf : String → String → String)
    (r : String) (fs : List String) :
    filesChunks w mkf r fs = filesChunks w mkf r (fs.filter (fun g => !skipExt g)) := by
  induction fs with
  | nil => rfl
  | cons f t ih =>
    by_cases hs : skipExt f = true
    · rw [filesChunks, if_pos hs, List.filter_cons, ih]
      simp [hs]
    · have hs' : skipExt f = false := by
        cases h : skipExt f
        · rfl
        · exact absurd h hs
      rw [filesChunks, if_neg hs, List.filter_cons]
      simp only [hs', Bool.not_false, if_true]
      rw [filesChunks, if_neg hs, ih]

/-- Every file of every visited root is rendered in the tree listing. -/
theorem tree_shows_file (w : World) (starts ex : List String) (start r f : String)
    (fs : List String) (hstart : start ∈ starts)
    (hmem : (r, fs) ∈ walkEntries w ex start) (hf : f ∈ fs) :
    subStr (generate_multi_tree w starts ex) ("|-- " ++ f ++ "\n") = true := by
  have hline : ∀ I fx : String,
      I ++ "    |-- " ++ fx ++ "\n" = (I ++ "    ") ++ ("|-- " ++ fx ++ "\n") := by
    intro I fx
    have h4 : "    |-- " = "    " ++ "|-- " := rfl
    rw [h4]
    simp only [strAppend_assoc]
  have hentry : subStr (renderEntry start (r, fs)) ("|-- " ++ f ++ "\n") = true := by
    simp only [renderEntry]
    apply subStr_append_right
    apply subStr_concat_of_mem _ _ _
      (List.mem_map_of_mem (fun g =>
        strRepeat "    " (countCharL (pyReplace r start "").data '/' + 1) ++
          "    |-- " ++ g ++ "\n") hf)
    show subStr (strRepeat "    " (countCharL (pyReplace r start "").data '/' + 1) ++
      "    |-- " ++ f ++ "\n") ("|-- " ++ f ++ "\n") = true
    rw [hline]
    exact subStr_suffix _ _
  cases hfs : w.fs start with
  | absent =>
    unfold walkEntries at hmem
    rw [hfs] at hmem
    exact absurd hmem (List.not_mem_nil _)
  | file e =>
    unfold walkEntries at hmem
    rw [hfs] at hmem
    exact absurd hmem (List.not_mem_nil _)
  | dir d =>
    unfold generate_multi_tree
    apply subStr_concat_of_mem _ _ _ (List.mem_map_of_mem _ hstart)
    rw [hfs]
    apply subStr_append_left
    apply subStr_append_right
    exact subStr_concat_of_mem _ _ _ (List.mem_map_of_mem (renderEntry start) hmem) hentry

/-- C9: a file with a skip-listed extension contributes no `<file>` entry to
the ARCHITECT/REFACTOR/DEVELOPER payload (the loop equals the loop over the
non-skipped files, and the file alone produces nothing), yet that file is
still rendered in the tree listing. -/
theorem C9_skiplist_tree_only (w : World) (mkf : String → String → String)
    (starts ex : List String) (start r f : String) (fs : List String)
    (hstart : start ∈ starts) (hmem : (r, fs) ∈ walkEntries w ex start)
    (hf : f ∈ fs) (hskip : skipExt f = true) :
    filesChunks w mkf r fs = filesChunks w mkf r (fs.filter (fun g => !skipExt g)) ∧
    filesChunks w mkf r [f] = .ok "" ∧
    subStr (generate_multi_tree w starts ex) ("|-- " ++ f ++ "\n") = true := by
  refine ⟨filesChunks_skip_filter w mkf r fs, ?_, tree_shows_file w starts ex start r f fs hstart hmem hf⟩
  rw [filesChunks, if_pos hskip]
  rfl

/-- An environment with one asset file under the source root. -/
def w9 : World :=
  { w0 with fs := fun p =>
      if p = "assets" then FsEntry.dir (Dir.node DirList.dnil ["pic.png"])
      else if p = "assets/pic.png" then FsEntry.file (Except.ok "PNG")
      else FsEntry.absent }

/-- Witness for C9 at the concrete asset file. -/
theorem C9_skiplist_tree_only_witness :
    filesChunks w9 fileChunkRaw "assets" ["pic.png"] =
      filesChunks w9 fileChunkRaw "assets" (["pic.png"].filter (fun g => !skipExt g)) ∧
    filesChunks w9 fileChunkRaw "assets" ["pic.png"] = .ok "" ∧
    subStr (generate_multi_tree w9 ["assets"] excludeDirs) ("|-- " ++ "pic.png" ++ "\n") = true :=
  C9_skiplist_tree_only w9 fileChunkRaw ["assets"] excludeDirs "assets" "assets" "pic.png"
    ["pic.png"] (by decide) (by decide) (by decide) rfl

end Grace
